import Mathlib

/-!
Verification of the sauceLab end-to-end test-suite page objects.

The repository consists of Playwright page-object classes and test scripts.
We shallowly embed the page-object methods that carry logic:

* DOM state is explicit: each page's relevant elements become fields of a
  state structure (an `Option` field models an element that may be absent).
* A Playwright query (`innerText`, `count`, `isVisible`) becomes a pure
  function of the state; a read of an absent element that would throw is
  modelled with `Option`/`Except`.
* `Math.random()` is modelled as an abstract stream `rand : Nat → ℚ` of the
  successive values returned by the generator (each in `[0, 1)`), and
  `Math.floor(Math.random() * max)` becomes `(⌊rand i * max⌋).toNat`.
* The unbounded `while` loop of `generateRandomUniqueIndices` is given a
  fuel parameter; `none` means the loop is still running after `fuel`
  iterations.
* JavaScript numbers appearing here are exact decimals read from rendered
  price labels, so they are modelled as `ℚ`; the `NaN` result of
  `parseInt` on a non-numeric string is modelled as `none : Option Int`.
-/

/-- A product record `{ name, price }` as read from the inventory DOM. -/
structure Product where
  name : String
  price : String
deriving DecidableEq

/-- State of the inventory page: the listed products, the server-side cart
contents, and the cart badge element (`none` when the badge is absent). -/
structure InventoryState where
  products : List Product
  cart : List Product
  badge : Option String
deriving DecidableEq

/-- State of the cart page: the `.cart_item` rows and the badge element. -/
structure CartState where
  items : List Product
  badge : Option String
deriving DecidableEq

/-- State of the checkout-complete page: whether the `.pony_express` image
element is rendered, and the completion header text. -/
structure CheckoutCompleteState where
  ponyExpress : Bool
  completeHeaderText : Option String
deriving DecidableEq

/-- State of the checkout overview page: the three rendered summary labels. -/
structure OverviewState where
  subtotalText : String
  taxText : String
  totalText : String
deriving DecidableEq

namespace Js

/-- Value of a list of decimal digit characters, most significant first. -/
def digitsVal (ds : List Char) : Nat :=
  ds.foldl (fun a c => 10 * a + (c.toNat - 48)) 0

/-- First match of the capture group of the pattern `\$(\d+\.?\d*)`:
scan left to right for `'$'` followed by at least one digit; the capture is
the maximal run of digits, an optional dot, and a further maximal digit run. -/
def matchDollarNumber : List Char → Option (List Char)
  | [] => none
  | c :: rest =>
    if c = '$' then
      if rest.takeWhile Char.isDigit = [] then matchDollarNumber rest
      else
        match rest.dropWhile Char.isDigit with
        | '.' :: r2 => some (rest.takeWhile Char.isDigit ++ '.' :: r2.takeWhile Char.isDigit)
        | _ => some (rest.takeWhile Char.isDigit)
    else matchDollarNumber rest

/-- `parseFloat` on a capture of the form `digits(.digits?)?`, exact in `ℚ`. -/
def parseFloatCapture (cs : List Char) : ℚ :=
  match cs.dropWhile Char.isDigit with
  | '.' :: frac =>
      (digitsVal (cs.takeWhile Char.isDigit) : ℚ) +
        (digitsVal (frac.takeWhile Char.isDigit) : ℚ) / (10 : ℚ) ^ (frac.takeWhile Char.isDigit).length
  | _ => (digitsVal (cs.takeWhile Char.isDigit) : ℚ)

/-- `text.match(/\$(\d+\.?\d*)/)` followed by `parseFloat`, defaulting to 0
when there is no match (the lenient-fallback policy of the page objects). -/
def extractDollarNumber (s : String) : ℚ :=
  match matchDollarNumber s.data with
  | some cs => parseFloatCapture cs
  | none => 0

/-- `x.toFixed(2)` for the non-negative numbers handled here, represented by
the rounded count of hundredths (ES rounds ties away from zero, i.e. up). -/
def toFixed2 (q : ℚ) : ℤ := Int.floor (q * 100 + 1 / 2)

/-- The characters after the optional sign accepted by `parseInt`. -/
def afterSign : List Char → List Char
  | '-' :: r => r
  | '+' :: r => r
  | l => l

/-- The sign factor read by `parseInt`. -/
def signOf : List Char → Int
  | '-' :: _ => -1
  | _ => 1

/-- `parseInt(s, 10)`: skip leading whitespace, read an optional sign and a
maximal run of digits; `none` models the `NaN` result when no digit is found. -/
def parseInt10 (s : String) : Option Int :=
  let l := s.data.dropWhile Char.isWhitespace
  let ds := (afterSign l).takeWhile Char.isDigit
  if ds = [] then none else some (signOf l * (digitsVal ds : Int))

end Js

namespace InventoryPage

/-- `getProductCount`: number of `.inventory_item` cards. -/
def getProductCount (st : InventoryState) : Nat := st.products.length

/-- `getProductDetails(index)`: name/price of the product at `index`;
`none` models the thrown timeout when the index is out of range. -/
def getProductDetails (st : InventoryState) (index : Nat) : Option Product :=
  st.products.get? index

/-- `addProductToCartByIndex(index)`: clicking the product's add-to-cart
button appends it to the server-side cart. -/
def addProductToCartByIndex (st : InventoryState) (index : Nat) : Option InventoryState :=
  match st.products.get? index with
  | none => none
  | some p => some { st with cart := st.cart ++ [p] }

/-- One draw of the sampling loop: `Math.floor(Math.random() * max)`, where
`rand i` is the value of the i-th call to `Math.random()`. -/
def randomIndexAt (rand : Nat → ℚ) (max i : Nat) : Nat :=
  (Int.floor (rand i * (max : ℚ))).toNat

/-- The `while (indices.length < count)` body of `generateRandomUniqueIndices`:
draw an index, push it if it is not already collected. `i` counts the calls to
`Math.random()` made so far; `none` means the fuel ran out with the loop still
running. -/
def genAux (rand : Nat → ℚ) (max count : Nat) : Nat → Nat → List Nat → Option (List Nat)
  | 0, _, indices => if indices.length < count then none else some indices
  | fuel + 1, i, indices =>
    if indices.length < count then
      if randomIndexAt rand max i ∈ indices then genAux rand max count fuel (i + 1) indices
      else genAux rand max count fuel (i + 1) (indices ++ [randomIndexAt rand max i])
    else some indices

/-- `generateRandomUniqueIndices(max, count)` run with `fuel` loop iterations. -/
def generateRandomUniqueIndices (rand : Nat → ℚ) (max count fuel : Nat) : Option (List Nat) :=
  genAux rand max count fuel 0 []

/-- The `for (const index of randomIndices)` loop of `addRandomProductsToCart`:
read the product's details, click its add button, record the details. -/
def addProductsByIndices (st : InventoryState) : List Nat → Option (InventoryState × List Product)
  | [] => some (st, [])
  | index :: rest =>
    match st.products.get? index with
    | none => none
    | some p =>
      match addProductsByIndices { st with cart := st.cart ++ [p] } rest with
      | none => none
      | some (st2, ps) => some (st2, p :: ps)

/-- `addRandomProductsToCart(count)`: validate `count` against the product
count, generate distinct random indices, then add the products one by one.
The result keeps the final page state together with the thrown error or the
returned list of added products; `none` means the sampling loop outran `fuel`. -/
def addRandomProductsToCart (st : InventoryState) (rand : Nat → ℚ) (count fuel : Nat) :
    Option (InventoryState × Except String (List Product)) :=
  if getProductCount st < count then
    some (st, Except.error ("Cannot add " ++ toString count ++ " products. Only " ++
      toString (getProductCount st) ++ " products available."))
  else
    match generateRandomUniqueIndices rand (getProductCount st) count fuel with
    | none => none
    | some randomIndices =>
      match addProductsByIndices st randomIndices with
      | none => none
      | some (st2, addedProducts) => some (st2, Except.ok addedProducts)

/-- `getCartCount`: `parseInt` of the badge text, with the `try/catch`
fallback to 0 when reading the absent badge throws. `none` models `NaN`. -/
def getCartCount (st : InventoryState) : Option Int :=
  match st.badge with
  | none => some 0
  | some badgeText => Js.parseInt10 badgeText

/-- `isCartBadgeVisible`: a read-only visibility probe on the badge element. -/
def isCartBadgeVisible (st : InventoryState) : InventoryState × Bool :=
  (st, st.badge.isSome)

end InventoryPage

namespace CartPage

/-- `getCartItemCount`: number of `.cart_item` rows. -/
def getCartItemCount (st : CartState) : Nat := st.items.length

/-- `removeItemByIndex(index)`: click the remove button at position `index`;
`none` models the thrown timeout when no such button exists. -/
def removeItemByIndex (items : List Product) (index : Nat) : Option (List Product) :=
  if index < items.length then some (items.eraseIdx index) else none

/-- `getCartBadgeCount`: same contract as `InventoryPage.getCartCount`. -/
def getCartBadgeCount (st : CartState) : Option Int :=
  match st.badge with
  | none => some 0
  | some badgeText => Js.parseInt10 badgeText

/-- `clearCart`: `while (itemCount > 0) removeItemByIndex(0)`; removing
position 0 of a non-empty cart leaves its tail. -/
def clearCart : List Product → List Product
  | [] => []
  | _ :: rest => clearCart rest

end CartPage

namespace CheckoutSuite

/-- The `test.beforeEach` cart cleanup of the checkout suite: read the item
count once, then `for (let i = 0; i < itemsInCart; i++) removeItemByIndex(i)`.
`none` means one of the removal clicks failed (button not found). -/
def beforeEachCartCleanup (items : List Product) : Option (List Product) :=
  (List.range items.length).foldlM (fun cur i => CartPage.removeItemByIndex cur i) items

end CheckoutSuite

namespace CheckoutStepTwoPage

/-- `getSubtotal`: numeric extraction from the `.summary_subtotal_label` text. -/
def getSubtotal (st : OverviewState) : ℚ := Js.extractDollarNumber st.subtotalText

/-- `getTax`: numeric extraction from the `.summary_tax_label` text. -/
def getTax (st : OverviewState) : ℚ := Js.extractDollarNumber st.taxText

/-- `getTotal`: numeric extraction from the `.summary_total_label` text. -/
def getTotal (st : OverviewState) : ℚ := Js.extractDollarNumber st.totalText

/-- `getPriceSummary`: the `{ subtotal, tax, total }` record. -/
def getPriceSummary (st : OverviewState) : ℚ × ℚ × ℚ :=
  (getSubtotal st, getTax st, getTotal st)

/-- `isPriceCalculationCorrect`:
`(subtotal + tax).toFixed(2) === total.toFixed(2)`. -/
def isPriceCalculationCorrect (st : OverviewState) : Bool :=
  decide (Js.toFixed2 (getSubtotal st + getTax st) = Js.toFixed2 (getTotal st))

end CheckoutStepTwoPage

namespace CheckoutCompletePage

/-- `isPonyExpressImageVisible`: read-only probe of the `.pony_express` image. -/
def isPonyExpressImageVisible (st : CheckoutCompleteState) : CheckoutCompleteState × Bool :=
  (st, st.ponyExpress)

end CheckoutCompletePage

/-- A `page.waitForURL(pattern, options)` call site: the URL pattern and the
explicitly configured timeout, `none` when the source passes no timeout. -/
structure NavWait where
  urlPattern : String
  timeoutMs : Option Nat
deriving DecidableEq

namespace LoginPage

/-- `LoginPage.waitForInventoryPage`: `waitForURL(/.*inventory.html/)`. -/
def waitForInventoryPage : NavWait :=
  { urlPattern := "inventory.html", timeoutMs := none }

end LoginPage

namespace CheckoutStepOnePage

/-- `waitForPageLoad`: `waitForURL(/.*checkout-step-one.html/, 10000ms)`. -/
def waitForPageLoad : NavWait :=
  { urlPattern := "checkout-step-one.html", timeoutMs := some 10000 }

end CheckoutStepOnePage

namespace CheckoutStepTwoPage

/-- `waitForCheckoutComplete`: `waitForURL(/.*checkout-complete.html/, 10000ms)`. -/
def waitForCheckoutComplete : NavWait :=
  { urlPattern := "checkout-complete.html", timeoutMs := some 10000 }

end CheckoutStepTwoPage

namespace CheckoutCompletePage

/-- `waitForInventoryPage`: `waitForURL(/.*inventory.html/, 10000ms)`. -/
def waitForInventoryPage : NavWait :=
  { urlPattern := "inventory.html", timeoutMs := some 10000 }

end CheckoutCompletePage

/-- A wait call succeeds exactly when the navigation completes within the
configured bound (the engine default applies when none was configured). -/
def waitSucceeds (w : NavWait) (defaultTimeoutMs navMs : Nat) : Bool :=
  decide (navMs ≤ w.timeoutMs.getD defaultTimeoutMs)

/-- Modelled from the spec: "within 2-decimal tolerance", read as agreement
after rounding to two decimal places (ties away from zero). -/
def roundToTwoDecimals (q : ℚ) : ℚ := ((Int.floor (q * 100 + 1 / 2) : ℤ) : ℚ) / 100

/-- Modelled from the spec: the text contains a currency-prefixed decimal,
i.e. a `'$'` immediately followed by a digit somewhere in the string. -/
def hasDollarDigit (l : List Char) : Prop :=
  ∃ i, i < l.length ∧ l.get? i = some '$' ∧ (l.get? (i + 1)).map Char.isDigit = some true

instance hasDollarDigitDec (l : List Char) : Decidable (hasDollarDigit l) :=
  decidable_of_iff
    (∃ i, i < l.length ∧ l.get? i = some '$' ∧ (l.get? (i + 1)).map Char.isDigit = some true)
    Iff.rfl

/-- A concrete inventory page used by the witnesses. -/
def demoInventory : InventoryState :=
  { products := [⟨"Sauce Labs Backpack", "$29.99"⟩, ⟨"Sauce Labs Bike Light", "$9.99"⟩,
      ⟨"Sauce Labs Bolt T-Shirt", "$15.99"⟩],
    cart := [], badge := none }

/-- A concrete random stream used by the witnesses: the i-th `Math.random()`
value is `(i % 3) / 3`, so the i-th drawn index is `i % 3`. -/
def demoRand (j : Nat) : ℚ := ((j % 3 : ℕ) : ℚ) / 3

/-- A concrete random stream for the two-product witnesses. -/
def demoRand2 (j : Nat) : ℚ := ((j % 2 : ℕ) : ℚ) / 2

/-- A concrete checkout overview used by the witnesses. -/
def demoOverview : OverviewState :=
  { subtotalText := "Item total: $29.99", taxText := "Tax: $2.40", totalText := "Total: $32.39" }

/-! ## Theorems -/

/-- C2: For every count `k` strictly greater than the number of products,
`addRandomProductsToCart(k)` raises an error carrying a descriptive message
before performing any add-to-cart action, so the cart state is unchanged. -/
theorem addRandomProductsToCart_overflow_error (st : InventoryState) (rand : Nat → ℚ)
    (count fuel : Nat) (h : InventoryPage.getProductCount st < count) :
    InventoryPage.addRandomProductsToCart st rand count fuel =
      some (st, Except.error ("Cannot add " ++ toString count ++ " products. Only " ++
        toString (InventoryPage.getProductCount st) ++ " products available.")) := by
  simp [InventoryPage.addRandomProductsToCart, h]

theorem addRandomProductsToCart_overflow_error_witness :
    InventoryPage.addRandomProductsToCart demoInventory demoRand 4 0 =
      some (demoInventory, Except.error ("Cannot add " ++ toString 4 ++ " products. Only " ++
        toString (InventoryPage.getProductCount demoInventory) ++ " products available.")) :=
  addRandomProductsToCart_overflow_error demoInventory demoRand 4 0 (by decide)

/-- C3: the pre-test cleanup of the checkout suite removes the item at the
current position `i` for `i = 0, 1, …` while the row list shrinks; on a cart
that starts with one item it empties it, but on a cart that starts with two
items the first click leaves one item and the second click targets a remove
button that no longer exists, so the routine fails with the cart non-empty.
The unused `CartPage.clearCart` (always remove position 0) does empty it. -/
theorem beforeEachCleanup_two_items_bug :
    CheckoutSuite.beforeEachCartCleanup [⟨"Sauce Labs Backpack", "$29.99"⟩] = some [] ∧
    CheckoutSuite.beforeEachCartCleanup
      [⟨"Sauce Labs Backpack", "$29.99"⟩, ⟨"Sauce Labs Bike Light", "$9.99"⟩] = none ∧
    CartPage.clearCart
      [⟨"Sauce Labs Backpack", "$29.99"⟩, ⟨"Sauce Labs Bike Light", "$9.99"⟩] = [] := by
  refine ⟨?_, ?_, rfl⟩ <;> decide

/-- C6: visibility probes and absent-badge reads never raise on a missing
element: `isPonyExpressImageVisible` and `isCartBadgeVisible` resolve to
`false` when the probed element is absent, and `getCartCount` and
`getCartBadgeCount` resolve to 0 when the badge cannot be read. -/
theorem missingElement_probes_resolve_default
    (cc : CheckoutCompleteState) (inv : InventoryState) (cart : CartState)
    (h1 : cc.ponyExpress = false) (h2 : inv.badge = none) (h3 : cart.badge = none) :
    (CheckoutCompletePage.isPonyExpressImageVisible cc).2 = false ∧
    (InventoryPage.isCartBadgeVisible inv).2 = false ∧
    InventoryPage.getCartCount inv = some 0 ∧
    CartPage.getCartBadgeCount cart = some 0 := by
  refine ⟨?_, ?_, ?_, ?_⟩ <;>
    simp [CheckoutCompletePage.isPonyExpressImageVisible, InventoryPage.isCartBadgeVisible,
      InventoryPage.getCartCount, CartPage.getCartBadgeCount, h1, h2, h3]

theorem missingElement_probes_resolve_default_witness :
    (CheckoutCompletePage.isPonyExpressImageVisible ⟨false, none⟩).2 = false ∧
    (InventoryPage.isCartBadgeVisible ⟨[], [], none⟩).2 = false ∧
    InventoryPage.getCartCount ⟨[], [], none⟩ = some 0 ∧
    CartPage.getCartBadgeCount ⟨[], none⟩ = some 0 :=
  missingElement_probes_resolve_default ⟨false, none⟩ ⟨[], [], none⟩ ⟨[], none⟩ rfl rfl rfl

/-- C8: visibility probes are idempotent and side-effect free: on a page
where the probed element has never been rendered, two successive calls both
return `false` and leave the page state exactly as it was. -/
theorem visibilityProbe_idempotent (cc : CheckoutCompleteState) (inv : InventoryState)
    (h1 : cc.ponyExpress = false) (h2 : inv.badge = none) :
    (CheckoutCompletePage.isPonyExpressImageVisible cc).2 = false ∧
    (CheckoutCompletePage.isPonyExpressImageVisible
      (CheckoutCompletePage.isPonyExpressImageVisible cc).1).2 = false ∧
    (CheckoutCompletePage.isPonyExpressImageVisible
      (CheckoutCompletePage.isPonyExpressImageVisible cc).1).1 = cc ∧
    (InventoryPage.isCartBadgeVisible inv).2 = false ∧
    (InventoryPage.isCartBadgeVisible (InventoryPage.isCartBadgeVisible inv).1).2 = false ∧
    (InventoryPage.isCartBadgeVisible (InventoryPage.isCartBadgeVisible inv).1).1 = inv := by
  refine ⟨?_, ?_, rfl, ?_, ?_, rfl⟩ <;>
    simp [CheckoutCompletePage.isPonyExpressImageVisible, InventoryPage.isCartBadgeVisible, h1, h2]

theorem visibilityProbe_idempotent_witness :
    (CheckoutCompletePage.isPonyExpressImageVisible ⟨false, some "Thank you for your order!"⟩).2 = false ∧
    (CheckoutCompletePage.isPonyExpressImageVisible
      (CheckoutCompletePage.isPonyExpressImageVisible ⟨false, some "Thank you for your order!"⟩).1).2 = false ∧
    (CheckoutCompletePage.isPonyExpressImageVisible
      (CheckoutCompletePage.isPonyExpressImageVisible ⟨false, some "Thank you for your order!"⟩).1).1 =
        (⟨false, some "Thank you for your order!"⟩ : CheckoutCompleteState) ∧
    (InventoryPage.isCartBadgeVisible ⟨[], [], none⟩).2 = false ∧
    (InventoryPage.isCartBadgeVisible
      (InventoryPage.isCartBadgeVisible ⟨[], [], none⟩).1).2 = false ∧
    (InventoryPage.isCartBadgeVisible
      (InventoryPage.isCartBadgeVisible ⟨[], [], none⟩).1).1 = (⟨[], [], none⟩ : InventoryState) :=
  visibilityProbe_idempotent ⟨false, some "Thank you for your order!"⟩ ⟨[], [], none⟩ rfl rfl

/-- C7 counterexample: `LoginPage.waitForInventoryPage` carries no explicit
timeout at all, contradicting the claim that every one of the four listed
wait-for-navigation calls carries an explicit 10-second bound. -/
theorem loginWait_timeout_counterexample :
    LoginPage.waitForInventoryPage.timeoutMs ≠ some 10000 := by decide

/-- C7 (amended): the three checkout-flow waits each carry an explicit
10-second timeout and fail whenever navigation takes longer, while
`LoginPage.waitForInventoryPage` configures no explicit timeout and falls
back to the engine default. -/
theorem navWait_timeout_bounds (defaultMs navMs : Nat) (h : 10000 < navMs) :
    CheckoutStepOnePage.waitForPageLoad.timeoutMs = some 10000 ∧
    CheckoutStepTwoPage.waitForCheckoutComplete.timeoutMs = some 10000 ∧
    CheckoutCompletePage.waitForInventoryPage.timeoutMs = some 10000 ∧
    LoginPage.waitForInventoryPage.timeoutMs = none ∧
    waitSucceeds CheckoutStepOnePage.waitForPageLoad defaultMs navMs = false ∧
    waitSucceeds CheckoutStepTwoPage.waitForCheckoutComplete defaultMs navMs = false ∧
    waitSucceeds CheckoutCompletePage.waitForInventoryPage defaultMs navMs = false := by
  refine ⟨rfl, rfl, rfl, rfl, ?_, ?_, ?_⟩ <;>
    simp [waitSucceeds, CheckoutStepOnePage.waitForPageLoad,
      CheckoutStepTwoPage.waitForCheckoutComplete, CheckoutCompletePage.waitForInventoryPage] <;>
    omega

theorem navWait_timeout_bounds_witness :
    CheckoutStepOnePage.waitForPageLoad.timeoutMs = some 10000 ∧
    CheckoutStepTwoPage.waitForCheckoutComplete.timeoutMs = some 10000 ∧
    CheckoutCompletePage.waitForInventoryPage.timeoutMs = some 10000 ∧
    LoginPage.waitForInventoryPage.timeoutMs = none ∧
    waitSucceeds CheckoutStepOnePage.waitForPageLoad 30000 10001 = false ∧
    waitSucceeds CheckoutStepTwoPage.waitForCheckoutComplete 30000 10001 = false ∧
    waitSucceeds CheckoutCompletePage.waitForInventoryPage 30000 10001 = false :=
  navWait_timeout_bounds 30000 10001 (by decide)

lemma hasDollarDigit_cons {c : Char} {rest : List Char} (h : hasDollarDigit rest) :
    hasDollarDigit (c :: rest) := by
  obtain ⟨i, hi, h1, h2⟩ := h
  exact ⟨i + 1, by simpa using Nat.succ_lt_succ hi, by simpa using h1, by simpa using h2⟩

lemma hasDollarDigit_cons_elim {c : Char} {rest : List Char} (h : hasDollarDigit (c :: rest)) :
    (c = '$' ∧ ∃ d t, rest = d :: t ∧ d.isDigit = true) ∨ hasDollarDigit rest := by
  obtain ⟨i, hi, h1, h2⟩ := h
  cases i with
  | zero =>
    left
    simp only [List.get?_cons_zero, Option.some.injEq] at h1
    cases rest with
    | nil => simp at h2
    | cons a t =>
      simp only [List.get?_cons_succ, List.get?_cons_zero] at h2
      simp only [Option.map_some', Option.some.injEq] at h2
      exact ⟨h1, a, t, rfl, h2⟩
  | succ i =>
    right
    refine ⟨i, ?_, by simpa using h1, by simpa using h2⟩
    simpa using Nat.lt_of_succ_lt_succ hi

lemma matchDollarNumber_dollar_isSome {rest : List Char}
    (hne : rest.takeWhile Char.isDigit ≠ []) :
    (Js.matchDollarNumber ('$' :: rest)).isSome = true := by
  unfold Js.matchDollarNumber
  rw [if_pos rfl, if_neg hne]
  split <;> simp

lemma matchDollarNumber_isSome_of_hasDollarDigit :
    ∀ l : List Char, hasDollarDigit l → (Js.matchDollarNumber l).isSome = true := by
  intro l
  induction l with
  | nil => intro h; obtain ⟨i, hi, _⟩ := h; simp at hi
  | cons c rest ih =>
    intro h
    by_cases hc : c = '$'
    · subst hc
      by_cases hne : rest.takeWhile Char.isDigit = []
      · rcases hasDollarDigit_cons_elim h with ⟨_, d, t, hrest, hd⟩ | hr
        · subst hrest; simp [List.takeWhile_cons, hd] at hne
        · have hs := ih hr
          unfold Js.matchDollarNumber
          rw [if_pos rfl, if_pos hne]
          exact hs
      · exact matchDollarNumber_dollar_isSome hne
    · rcases hasDollarDigit_cons_elim h with ⟨hceq, _⟩ | hr
      · exact absurd hceq hc
      · have hs := ih hr
        unfold Js.matchDollarNumber
        rw [if_neg hc]
        exact hs

lemma hasDollarDigit_of_matchDollarNumber_isSome :
    ∀ l : List Char, (Js.matchDollarNumber l).isSome = true → hasDollarDigit l := by
  intro l
  induction l with
  | nil => intro h; simp [Js.matchDollarNumber] at h
  | cons c rest ih =>
    intro h
    by_cases hc : c = '$'
    · by_cases hne : rest.takeWhile Char.isDigit = []
      · subst hc
        unfold Js.matchDollarNumber at h
        rw [if_pos rfl, if_pos hne] at h
        exact hasDollarDigit_cons (ih h)
      · subst hc
        cases rest with
        | nil => simp at hne
        | cons a t =>
          have ha : a.isDigit = true := by
            by_contra hna
            simp only [Bool.not_eq_true] at hna
            simp [List.takeWhile_cons, hna] at hne
          exact ⟨0, by simp, by simp, by simp [ha]⟩
    · unfold Js.matchDollarNumber at h
      rw [if_neg hc] at h
      exact hasDollarDigit_cons (ih h)

/-- C5: each numeric-extraction query of the checkout overview matches the
label text against the currency-prefixed decimal pattern `\$(\d+\.?\d*)`,
returns the parsed capture when a match exists, and returns exactly 0 when
no match is found, without raising an error. -/
theorem numericExtraction_lenient_fallback (st : OverviewState) (sNo sYes : String)
    (hNo : ¬ hasDollarDigit sNo.data) (hYes : hasDollarDigit sYes.data) :
    CheckoutStepTwoPage.getSubtotal st = Js.extractDollarNumber st.subtotalText ∧
    CheckoutStepTwoPage.getTax st = Js.extractDollarNumber st.taxText ∧
    CheckoutStepTwoPage.getTotal st = Js.extractDollarNumber st.totalText ∧
    Js.extractDollarNumber sNo = 0 ∧
    (∃ cs, Js.matchDollarNumber sYes.data = some cs ∧
      Js.extractDollarNumber sYes = Js.parseFloatCapture cs) := by
  refine ⟨rfl, rfl, rfl, ?_, ?_⟩
  · cases hm : Js.matchDollarNumber sNo.data with
    | none => simp [Js.extractDollarNumber, hm]
    | some cs =>
      exact absurd (hasDollarDigit_of_matchDollarNumber_isSome _ (by simp [hm])) hNo
  · have hsome := matchDollarNumber_isSome_of_hasDollarDigit _ hYes
    cases hm : Js.matchDollarNumber sYes.data with
    | none => rw [hm] at hsome; simp at hsome
    | some cs => exact ⟨cs, rfl, by simp [Js.extractDollarNumber, hm]⟩

theorem numericExtraction_lenient_fallback_witness :
    CheckoutStepTwoPage.getSubtotal demoOverview = Js.extractDollarNumber demoOverview.subtotalText ∧
    CheckoutStepTwoPage.getTax demoOverview = Js.extractDollarNumber demoOverview.taxText ∧
    CheckoutStepTwoPage.getTotal demoOverview = Js.extractDollarNumber demoOverview.totalText ∧
    Js.extractDollarNumber "Tax: --" = 0 ∧
    (∃ cs, Js.matchDollarNumber "Tax: $2.40".data = some cs ∧
      Js.extractDollarNumber "Tax: $2.40" = Js.parseFloatCapture cs) :=
  numericExtraction_lenient_fallback demoOverview "Tax: --" "Tax: $2.40" (by decide) (by decide)

/-- C4: `isPriceCalculationCorrect` returns `true` exactly when the sum of
the extracted subtotal and tax agrees with the extracted total after
rounding to two decimal places. -/
theorem isPriceCalculationCorrect_iff (st : OverviewState) :
    CheckoutStepTwoPage.isPriceCalculationCorrect st = true ↔
      roundToTwoDecimals (CheckoutStepTwoPage.getSubtotal st + CheckoutStepTwoPage.getTax st) =
        roundToTwoDecimals (CheckoutStepTwoPage.getTotal st) := by
  unfold CheckoutStepTwoPage.isPriceCalculationCorrect roundToTwoDecimals Js.toFixed2
  rw [decide_eq_true_iff]
  constructor
  · intro h; rw [h]
  · intro h
    rw [div_eq_div_iff (by norm_num) (by norm_num)] at h
    have h2 := mul_right_cancel₀ (by norm_num : (100 : ℚ) ≠ 0) h
    exact_mod_cast h2

theorem isPriceCalculationCorrect_iff_witness :
    CheckoutStepTwoPage.isPriceCalculationCorrect demoOverview = true ↔
      roundToTwoDecimals
        (CheckoutStepTwoPage.getSubtotal demoOverview + CheckoutStepTwoPage.getTax demoOverview) =
        roundToTwoDecimals (CheckoutStepTwoPage.getTotal demoOverview) :=
  isPriceCalculationCorrect_iff demoOverview

lemma takeWhile_isDigit_nil_iff (l : List Char) :
    l.takeWhile Char.isDigit = [] ↔ ∀ c, l.head? = some c → c.isDigit = false := by
  cases l with
  | nil => simp
  | cons a t =>
    cases h : a.isDigit with
    | true => simp [List.takeWhile_cons, h]
    | false => simp [List.takeWhile_cons, h]

/-- C10 counterexample: a badge reading `"-5"` does not start with a digit,
yet `getCartCount` returns the number -5, not `NaN` and not the 0 default. -/
theorem getCartCount_nonNumeric_counterexample :
    "-5".data.head? = some '-' ∧ ('-').isDigit = false ∧
    InventoryPage.getCartCount ⟨[], [], some "-5"⟩ = some (-5) ∧
    InventoryPage.getCartCount ⟨[], [], some "-5"⟩ ≠ none := by
  refine ⟨?_, ?_, ?_, ?_⟩ <;> decide

/-- C10 (amended): when the badge is present, `getCartCount` and
`getCartBadgeCount` return `parseInt(text, 10)`, which is `NaN` exactly when
the text has no leading digit after optional whitespace and an optional
sign; the 0 fallback applies only when reading the absent badge throws. -/
theorem cartBadge_parse_semantics (inv : InventoryState) (cart : CartState) (t : String)
    (h1 : inv.badge = some t) (h2 : cart.badge = some t) :
    InventoryPage.getCartCount inv = Js.parseInt10 t ∧
    CartPage.getCartBadgeCount cart = Js.parseInt10 t ∧
    (Js.parseInt10 t = none ↔
      ∀ c, (Js.afterSign (t.data.dropWhile Char.isWhitespace)).head? = some c →
        c.isDigit = false) := by
  refine ⟨by simp [InventoryPage.getCartCount, h1], by simp [CartPage.getCartBadgeCount, h2], ?_⟩
  rw [← takeWhile_isDigit_nil_iff]
  unfold Js.parseInt10
  by_cases hds : (Js.afterSign (t.data.dropWhile Char.isWhitespace)).takeWhile Char.isDigit = []
  · simp [hds]
  · simp [hds]

theorem cartBadge_parse_semantics_witness :
    InventoryPage.getCartCount ⟨[], [], some "abc"⟩ = Js.parseInt10 "abc" ∧
    CartPage.getCartBadgeCount ⟨[], some "abc"⟩ = Js.parseInt10 "abc" ∧
    (Js.parseInt10 "abc" = none ↔
      ∀ c, (Js.afterSign ("abc".data.dropWhile Char.isWhitespace)).head? = some c →
        c.isDigit = false) :=
  cartBadge_parse_semantics ⟨[], [], some "abc"⟩ ⟨[], some "abc"⟩ "abc" rfl rfl

lemma nodup_append_singleton {l : List Nat} {r : Nat} (hnd : l.Nodup) (hr : r ∉ l) :
    (l ++ [r]).Nodup := by
  simp [List.nodup_append, hnd, hr]

lemma nodup_lt_length_le {l : List Nat} {max : Nat} (hnd : l.Nodup)
    (hlt : ∀ x ∈ l, x < max) : l.length ≤ max := by
  have hsub : l ⊆ List.range max := fun x hx => List.mem_range.2 (hlt x hx)
  simpa using (List.subperm_of_subset hnd hsub).length_le

lemma randomIndexAt_lt (rand : Nat → ℚ) (max : Nat) (hmax : 0 < max) (i : Nat)
    (h0 : 0 ≤ rand i) (h1 : rand i < 1) :
    InventoryPage.randomIndexAt rand max i < max := by
  unfold InventoryPage.randomIndexAt
  have hmq : (0 : ℚ) < (max : ℚ) := by exact_mod_cast hmax
  have hfl : Int.floor (rand i * (max : ℚ)) < (max : ℤ) := by
    rw [Int.floor_lt]
    push_cast
    calc rand i * (max : ℚ) < 1 * (max : ℚ) := mul_lt_mul_of_pos_right h1 hmq
      _ = (max : ℚ) := one_mul _
  have hnn : (0 : ℤ) ≤ Int.floor (rand i * (max : ℚ)) :=
    Int.floor_nonneg.2 (mul_nonneg h0 (le_of_lt hmq))
  omega

lemma genAux_sound (rand : Nat → ℚ) (max count : Nat)
    (hd : ∀ i, InventoryPage.randomIndexAt rand max i < max) :
    ∀ fuel i indices res, indices.Nodup → (∀ x ∈ indices, x < max) →
      indices.length ≤ count →
      InventoryPage.genAux rand max count fuel i indices = some res →
      res.length = count ∧ res.Nodup ∧ ∀ x ∈ res, x < max := by
  intro fuel
  induction fuel with
  | zero =>
    intro i indices res hnd hlt hlen hrun
    by_cases hc : indices.length < count
    · simp [InventoryPage.genAux, hc] at hrun
    · simp only [InventoryPage.genAux, if_neg hc, Option.some.injEq] at hrun
      subst hrun
      exact ⟨le_antisymm hlen (not_lt.1 hc), hnd, hlt⟩
  | succ fuel ih =>
    intro i indices res hnd hlt hlen hrun
    by_cases hc : indices.length < count
    · simp only [InventoryPage.genAux, if_pos hc] at hrun
      by_cases hmem : InventoryPage.randomIndexAt rand max i ∈ indices
      · rw [if_pos hmem] at hrun
        exact ih (i + 1) indices res hnd hlt hlen hrun
      · rw [if_neg hmem] at hrun
        refine ih (i + 1) _ res (nodup_append_singleton hnd hmem) ?_ ?_ hrun
        · intro x hx
          rcases List.mem_append.1 hx with hx | hx
          · exact hlt x hx
          · rw [List.mem_singleton] at hx
            subst hx
            exact hd i
        · simp only [List.length_append, List.length_singleton]
          omega
    · simp only [InventoryPage.genAux, if_neg hc, Option.some.injEq] at hrun
      subst hrun
      exact ⟨le_antisymm hlen (not_lt.1 hc), hnd, hlt⟩

lemma genAux_none_of_count_gt_max (rand : Nat → ℚ) (max count : Nat)
    (hd : ∀ i, InventoryPage.randomIndexAt rand max i < max) (hcm : max < count) :
    ∀ fuel i indices, indices.Nodup → (∀ x ∈ indices, x < max) →
      InventoryPage.genAux rand max count fuel i indices = none := by
  intro fuel
  induction fuel with
  | zero =>
    intro i indices hnd hlt
    have hc : indices.length < count := lt_of_le_of_lt (nodup_lt_length_le hnd hlt) hcm
    simp [InventoryPage.genAux, hc]
  | succ fuel ih =>
    intro i indices hnd hlt
    have hc : indices.length < count := lt_of_le_of_lt (nodup_lt_length_le hnd hlt) hcm
    by_cases hmem : InventoryPage.randomIndexAt rand max i ∈ indices
    · simp only [InventoryPage.genAux, if_pos hc, if_pos hmem]
      exact ih (i + 1) indices hnd hlt
    · simp only [InventoryPage.genAux, if_pos hc, if_neg hmem]
      refine ih (i + 1) _ (nodup_append_singleton hnd hmem) ?_
      intro x hx
      rcases List.mem_append.1 hx with hx | hx
      · exact hlt x hx
      · rw [List.mem_singleton] at hx
        subst hx
        exact hd i

lemma genAux_skip (rand : Nat → ℚ) (max count : Nat)
    (hd : ∀ i, InventoryPage.randomIndexAt rand max i < max) :
    ∀ m i indices,
      indices.length < count →
      InventoryPage.randomIndexAt rand max (i + m) ∉ indices →
      (∀ j r, r ∉ indices → r < max →
        ∃ fuel res, InventoryPage.genAux rand max count fuel j (indices ++ [r]) = some res ∧
          res.length = count ∧ res.Nodup ∧ ∀ x ∈ res, x < max) →
      ∃ fuel res, InventoryPage.genAux rand max count fuel i indices = some res ∧
        res.length = count ∧ res.Nodup ∧ ∀ x ∈ res, x < max := by
  intro m
  induction m with
  | zero =>
    intro i indices hlen hfresh hcb
    rw [Nat.add_zero] at hfresh
    obtain ⟨fuel, res, hrun, hres⟩ :=
      hcb (i + 1) (InventoryPage.randomIndexAt rand max i) hfresh (hd i)
    refine ⟨fuel + 1, res, ?_, hres⟩
    simp only [InventoryPage.genAux, if_pos hlen, if_neg hfresh]
    exact hrun
  | succ m ih =>
    intro i indices hlen hfresh hcb
    by_cases hmem : InventoryPage.randomIndexAt rand max i ∈ indices
    · have hfresh2 : InventoryPage.randomIndexAt rand max (i + 1 + m) ∉ indices := by
        have harith : i + 1 + m = i + (m + 1) := by omega
        rw [harith]
        exact hfresh
      obtain ⟨fuel, res, hrun, hres⟩ := ih (i + 1) indices hlen hfresh2 hcb
      refine ⟨fuel + 1, res, ?_, hres⟩
      simp only [InventoryPage.genAux, if_pos hlen, if_pos hmem]
      exact hrun
    · obtain ⟨fuel, res, hrun, hres⟩ :=
        hcb (i + 1) (InventoryPage.randomIndexAt rand max i) hmem (hd i)
      refine ⟨fuel + 1, res, ?_, hres⟩
      simp only [InventoryPage.genAux, if_pos hlen, if_neg hmem]
      exact hrun

lemma genAux_completes (rand : Nat → ℚ) (max count : Nat)
    (hd : ∀ i, InventoryPage.randomIndexAt rand max i < max)
    (hfair : ∀ v, v < max → ∀ N, ∃ i, N ≤ i ∧ InventoryPage.randomIndexAt rand max i = v)
    (hcm : count ≤ max) :
    ∀ k indices i, count ≤ indices.length + k → indices.Nodup →
      (∀ x ∈ indices, x < max) → indices.length ≤ count →
      ∃ fuel res, InventoryPage.genAux rand max count fuel i indices = some res ∧
        res.length = count ∧ res.Nodup ∧ ∀ x ∈ res, x < max := by
  intro k
  induction k with
  | zero =>
    intro indices i hck hnd hlt hlc
    have hlen : indices.length = count := by omega
    exact ⟨0, indices, by simp [InventoryPage.genAux, hlen], hlen, hnd, hlt⟩
  | succ k ih =>
    intro indices i hck hnd hlt hlc
    by_cases hfull : indices.length = count
    · exact ⟨0, indices, by simp [InventoryPage.genAux, hfull], hfull, hnd, hlt⟩
    · have hlen : indices.length < count := lt_of_le_of_ne hlc hfull
      obtain ⟨v, hv, hvn⟩ : ∃ v, v < max ∧ v ∉ indices := by
        by_contra hcon
        push_neg at hcon
        have hsub : List.range max ⊆ indices := fun x hx => hcon x (List.mem_range.1 hx)
        have hle : max ≤ indices.length := by
          simpa using (List.subperm_of_subset (List.nodup_range max) hsub).length_le
        omega
      obtain ⟨j, hij, hdj⟩ := hfair v hv i
      have hfresh : InventoryPage.randomIndexAt rand max (i + (j - i)) ∉ indices := by
        rw [Nat.add_sub_cancel' hij, hdj]
        exact hvn
      refine genAux_skip rand max count hd (j - i) i indices hlen hfresh ?_
      intro j2 r hr hrm
      refine ih (indices ++ [r]) j2 ?_ (nodup_append_singleton hnd hr) ?_ ?_
      · simp only [List.length_append, List.length_singleton]
        omega
      · intro x hx
        rcases List.mem_append.1 hx with hx | hx
        · exact hlt x hx
        · rw [List.mem_singleton] at hx
          subst hx
          exact hrm
      · simp only [List.length_append, List.length_singleton]
        omega

/-- C9: under the code's own guarantee that every draw lands in `[0, max)`
(`rand` in `[0, 1)`, `max > 0`), and the almost-sure property of the random
source that every index below `max` keeps occurring among the draws, the
rejection-sampling loop of `generateRandomUniqueIndices(max, count)`
terminates for every `count ≤ max` with exactly `count` pairwise-distinct
indices, each in `[0, max)`; and for `count > max` it can never collect
enough unique indices, so it does not terminate for any amount of fuel. -/
theorem generateRandomUniqueIndices_termination (max count : Nat) (rand : Nat → ℚ)
    (hmax : 0 < max)
    (hrand : ∀ i, 0 ≤ rand i ∧ rand i < 1)
    (hfair : ∀ v, v < max → ∀ N, ∃ i, N ≤ i ∧ InventoryPage.randomIndexAt rand max i = v) :
    (count ≤ max →
      ∃ fuel res, InventoryPage.generateRandomUniqueIndices rand max count fuel = some res ∧
        res.length = count ∧ res.Nodup ∧ ∀ x ∈ res, x < max) ∧
    (max < count →
      ∀ fuel, InventoryPage.generateRandomUniqueIndices rand max count fuel = none) := by
  have hd : ∀ i, InventoryPage.randomIndexAt rand max i < max := fun i =>
    randomIndexAt_lt rand max hmax i (hrand i).1 (hrand i).2
  constructor
  · intro hcm
    have h := genAux_completes rand max count hd hfair hcm count [] 0 (by simp)
      List.nodup_nil (by simp) (by simp)
    simpa [InventoryPage.generateRandomUniqueIndices] using h
  · intro hcm fuel
    exact genAux_none_of_count_gt_max rand max count hd hcm fuel 0 [] List.nodup_nil (by simp)

lemma demoRand_bounds (i : Nat) : 0 ≤ demoRand i ∧ demoRand i < 1 := by
  unfold demoRand
  constructor
  · positivity
  · rw [div_lt_one (by norm_num)]
    exact_mod_cast Nat.mod_lt i (by norm_num)

lemma demoRand2_bounds (i : Nat) : 0 ≤ demoRand2 i ∧ demoRand2 i < 1 := by
  unfold demoRand2
  constructor
  · positivity
  · rw [div_lt_one (by norm_num)]
    exact_mod_cast Nat.mod_lt i (by norm_num)

lemma demoRand_indexAt (i : Nat) : InventoryPage.randomIndexAt demoRand 3 i = i % 3 := by
  unfold InventoryPage.randomIndexAt demoRand
  have h3 : ((3 : ℕ) : ℚ) = (3 : ℚ) := by norm_num
  rw [h3, div_mul_cancel₀ _ (by norm_num : (3 : ℚ) ≠ 0), Int.floor_natCast]
  exact Int.toNat_natCast _

lemma demoRand2_indexAt (i : Nat) : InventoryPage.randomIndexAt demoRand2 2 i = i % 2 := by
  unfold InventoryPage.randomIndexAt demoRand2
  have h2 : ((2 : ℕ) : ℚ) = (2 : ℚ) := by norm_num
  rw [h2, div_mul_cancel₀ _ (by norm_num : (2 : ℚ) ≠ 0), Int.floor_natCast]
  exact Int.toNat_natCast _

lemma demoRand2_fair :
    ∀ v, v < 2 → ∀ N, ∃ i, N ≤ i ∧ InventoryPage.randomIndexAt demoRand2 2 i = v := by
  intro v hv N
  refine ⟨2 * N + v, by omega, ?_⟩
  rw [demoRand2_indexAt]
  omega

theorem generateRandomUniqueIndices_termination_witness :
    (2 ≤ 2 →
      ∃ fuel res, InventoryPage.generateRandomUniqueIndices demoRand2 2 2 fuel = some res ∧
        res.length = 2 ∧ res.Nodup ∧ ∀ x ∈ res, x < 2) ∧
    (2 < 2 →
      ∀ fuel, InventoryPage.generateRandomUniqueIndices demoRand2 2 2 fuel = none) :=
  generateRandomUniqueIndices_termination 2 2 demoRand2 (by norm_num) demoRand2_bounds
    demoRand2_fair

lemma get?_eq_some_getD {l : List Product} {i : Nat} (h : i < l.length) :
    l.get? i = some ((l.get? i).getD ⟨"", ""⟩) := by
  cases hx : l.get? i with
  | none =>
    rw [List.get?_eq_none] at hx
    omega
  | some p => rfl

lemma addProductsByIndices_complete :
    ∀ (idxs : List Nat) (prods cart : List Product) (badge : Option String),
      (∀ x ∈ idxs, x < prods.length) →
      InventoryPage.addProductsByIndices ⟨prods, cart, badge⟩ idxs =
        some (⟨prods, cart ++ idxs.map (fun i => (prods.get? i).getD ⟨"", ""⟩), badge⟩,
          idxs.map (fun i => (prods.get? i).getD ⟨"", ""⟩)) := by
  intro idxs
  induction idxs with
  | nil =>
    intro prods cart badge h
    simp [InventoryPage.addProductsByIndices]
  | cons i rest ih =>
    intro prods cart badge h
    have hi : i < prods.length := h i (List.mem_cons_self i rest)
    obtain ⟨p, hp⟩ : ∃ p, prods.get? i = some p := by
      cases hx : prods.get? i with
      | none =>
        rw [List.get?_eq_none] at hx
        omega
      | some q => exact ⟨q, rfl⟩
    have hp2 : prods[i]? = some p := by simpa using hp
    simp only [InventoryPage.addProductsByIndices, hp]
    rw [ih prods (cart ++ [p]) badge (fun x hx => h x (List.mem_cons_of_mem i hx))]
    simp [List.append_assoc, hp2]

/-- C1: for every `count ≤` the number of products, whenever the
rejection-sampling loop completes within the given fuel (which it does with
probability 1), `addRandomProductsToCart(count)` selects exactly `count`
pairwise-distinct in-range indices, performs one add-to-cart action per
selected index in selection order (the cart is extended by exactly those
products, in that order), and returns the corresponding name/price records
in the same selection order. -/
theorem addRandomProductsToCart_success (st : InventoryState) (rand : Nat → ℚ)
    (count fuel : Nat) (idxs : List Nat)
    (hk : count ≤ st.products.length)
    (hrand : ∀ i, 0 ≤ rand i ∧ rand i < 1)
    (hgen : InventoryPage.generateRandomUniqueIndices rand st.products.length count fuel =
      some idxs) :
    idxs.length = count ∧ idxs.Nodup ∧ (∀ x ∈ idxs, x < st.products.length) ∧
    InventoryPage.addRandomProductsToCart st rand count fuel =
      some ({ st with
          cart := st.cart ++ idxs.map (fun i => (InventoryPage.getProductDetails st i).getD ⟨"", ""⟩) },
        Except.ok (idxs.map (fun i => (InventoryPage.getProductDetails st i).getD ⟨"", ""⟩))) := by
  obtain ⟨prods, cart, badge⟩ := st
  simp only at hk hgen ⊢
  by_cases hmax : prods.length = 0
  · have hcnt : count = 0 := by omega
    subst hcnt
    have hzero : InventoryPage.generateRandomUniqueIndices rand prods.length 0 fuel = some [] := by
      cases fuel <;> simp [InventoryPage.generateRandomUniqueIndices, InventoryPage.genAux]
    rw [hzero] at hgen
    have hidxs : idxs = [] := by
      simpa using hgen.symm
    subst hidxs
    refine ⟨rfl, List.nodup_nil, by simp, ?_⟩
    simp only [InventoryPage.addRandomProductsToCart, InventoryPage.getProductCount]
    rw [if_neg (by omega)]
    rw [hzero]
    simp [InventoryPage.addProductsByIndices]
  · have hmaxpos : 0 < prods.length := Nat.pos_of_ne_zero hmax
    have hd : ∀ i, InventoryPage.randomIndexAt rand prods.length i < prods.length :=
      fun i => randomIndexAt_lt rand prods.length hmaxpos i (hrand i).1 (hrand i).2
    obtain ⟨hlen, hnd, hlt⟩ := genAux_sound rand prods.length count hd fuel 0 [] idxs
      List.nodup_nil (by simp) (by simp) hgen
    refine ⟨hlen, hnd, hlt, ?_⟩
    simp only [InventoryPage.addRandomProductsToCart, InventoryPage.getProductCount]
    rw [if_neg (not_lt.2 hk)]
    rw [hgen]
    simp [addProductsByIndices_complete idxs prods cart badge hlt,
      InventoryPage.getProductDetails]

lemma demo_gen_eval : InventoryPage.generateRandomUniqueIndices demoRand 3 2 2 = some [0, 1] := by
  have e0 := demoRand_indexAt 0
  have e1 := demoRand_indexAt 1
  simp [InventoryPage.generateRandomUniqueIndices, InventoryPage.genAux, e0, e1]

theorem addRandomProductsToCart_success_witness :
    ([0, 1] : List Nat).length = 2 ∧ ([0, 1] : List Nat).Nodup ∧
    (∀ x ∈ ([0, 1] : List Nat), x < demoInventory.products.length) ∧
    InventoryPage.addRandomProductsToCart demoInventory demoRand 2 2 =
      some ({ demoInventory with
          cart := demoInventory.cart ++ ([0, 1] : List Nat).map (fun i => (InventoryPage.getProductDetails demoInventory i).getD ⟨"", ""⟩) },
        Except.ok (([0, 1] : List Nat).map
          (fun i => (InventoryPage.getProductDetails demoInventory i).getD ⟨"", ""⟩))) :=
  addRandomProductsToCart_success demoInventory demoRand 2 2 [0, 1] (by decide)
    demoRand_bounds demo_gen_eval
